import Mathlib

/-!
Shallow embedding of `twofabackup` (src/twofabackup/main.py): a personal vault
for 2FA backup codes.  The Vault Store is an SQLite table `servicecodes`
(id INTEGER PRIMARY KEY AUTOINCREMENT, service_name TEXT NOT NULL UNIQUE,
description TEXT, encrypted_backup_codes BLOB, date_added TEXT); the Cipher
Engine is the third-party Fernet authenticated symmetric cipher.  The
database table is modelled as an explicit state value threaded through the
operations, the Fernet cipher is modelled symbolically (a token records the
key it was produced with and the payload; decryption succeeds exactly when
the decrypting key equals the producing key, which is the authenticated
encryption guarantee the library documents), and Python's UTF-8
`str.encode` / `bytes.decode` pair is modelled abstractly as the injective
serialization of a string into its code points together with its partial
inverse.  Console output and error printing are captured as an explicit
event list; an uncaught Python exception is an `Except.error` value that
propagates to `main` and terminates the process.
-/

namespace Twofabackup

/-- Byte strings, modelled as lists of naturals. -/
abbrev Bytes := List Nat

/-- Model of Python `str.encode()`: serialize a string to its code points. -/
def pyEncode (s : String) : Bytes := s.data.map Char.toNat

/-- Decode a single code point, failing on values that are not valid
Unicode scalar values. -/
def decodeCodePoint (n : Nat) : Option Char :=
  if n.isValidChar then some (Char.ofNat n) else none

/-- Decode a list of code points, failing if any single one fails. -/
def decodeCodePoints : Bytes → Option (List Char)
  | [] => some []
  | n :: rest =>
    match decodeCodePoint n, decodeCodePoints rest with
    | some c, some cs => some (c :: cs)
    | _, _ => none

/-- Model of Python `bytes.decode()`: the partial inverse of `pyEncode`. -/
def pyDecode (b : Bytes) : Option String :=
  (decodeCodePoints b).map String.mk

/-- Model of Python `str.strip()` as used on the input file contents:
drop leading and trailing whitespace characters. -/
def pyStrip (s : String) : String :=
  ⟨((s.data.dropWhile Char.isWhitespace).reverse.dropWhile Char.isWhitespace).reverse⟩

/-- Symbolic model of a validated Fernet key (the 32-byte urlsafe-base64
key of the `cryptography` library), identified abstractly. -/
structure FernetKey where
  keyId : Nat
deriving DecidableEq

/-- Key material before validation by the `Fernet(key)` constructor: either
well-formed key bytes (identifying a `FernetKey`) or malformed bytes that the
constructor rejects with `ValueError`.  `Fernet.generate_key()` always
returns well-formed material; the operator's typed reply may be either. -/
inductive KeyMaterial
  | wellFormed (k : FernetKey)
  | malformed (raw : String)
deriving DecidableEq

/-- Symbolic model of the byte strings stored in the
`encrypted_backup_codes` column: either a genuine Fernet token (which
records the key that produced it and the encrypted payload) or junk bytes
that are not a Fernet token (e.g. corrupted data).  `junk []` models the
empty byte string; a real Fernet token is never empty. -/
inductive CipherBytes
  | token (key : FernetKey) (payload : Bytes)
  | junk (raw : Bytes)
deriving DecidableEq

/-- Python falsiness of one `CipherBytes` value, as tested by
`if not row.encrypted_backup_codes` for non-`None` bytes: only the empty
byte string is falsy. -/
def CipherBytes.pyFalsy : CipherBytes → Bool
  | .token _ _ => false
  | .junk raw => raw.isEmpty

/-- Python falsiness of the nullable `encrypted_backup_codes` column:
`None` and the empty byte string are falsy. -/
def bytesFalsy : Option CipherBytes → Bool
  | none => true
  | some c => c.pyFalsy

/-- Symbolic model of a constructed `cryptography.fernet.Fernet` engine:
it holds the validated key it was built from. -/
structure Fernet where
  key : FernetKey
deriving DecidableEq

/-- Model of `Fernet.encrypt`: authenticated encryption produces a token
bound to the engine's key. -/
def Fernet.encrypt (f : Fernet) (data : Bytes) : CipherBytes :=
  .token f.key data

/-- Model of `Fernet.decrypt`: returns the payload exactly when the data is
a token produced under the same key; `none` models raising `InvalidToken`
(wrong key, corrupted data, or non-token bytes — indistinguishable by
design of authenticated encryption). -/
def Fernet.decrypt (f : Fernet) (data : CipherBytes) : Option Bytes :=
  match data with
  | .token k payload => if k = f.key then some payload else none
  | .junk _ => none

/-- Python exceptions that can escape the modelled operations.  A value of
this type reaching `main` uncaught terminates the process: `systemExit c`
exits with code `c` (raised explicitly by the program after printing a
diagnostic), the others abort with a traceback and a nonzero exit. -/
inductive PyErr
  | integrityError (msg : String)
  | valueError (msg : String)
  | unicodeDecodeError
  | systemExit (code : Nat)
deriving DecidableEq

/-- Whether an operation outcome terminates the process: any uncaught
exception (including `SystemExit`) is fatal to the invocation; `ok` means
the function returns normally and the process exits 0. -/
def processFatal : Except PyErr Unit → Bool
  | .ok _ => false
  | .error _ => true

/-- Whether an `Except` outcome is an error. -/
def exceptFails {α : Type} : Except PyErr α → Bool
  | .ok _ => false
  | .error _ => true

/-- The `ServiceCodes` dataclass: one entry of the vault as held in memory.
`decrypted_backup_codes` defaults to the empty string (the dataclass
declares `Optional[str] = ""`; the program only ever assigns strings). -/
structure ServiceCodes where
  id : Nat
  service_name : String
  date_added : String
  description : Option String
  encrypted_backup_codes : Option CipherBytes := none
  decrypted_backup_codes : String := ""
deriving DecidableEq

/-- One row of the `servicecodes` table, in schema column order. -/
structure Row where
  id : Nat
  service_name : String
  description : Option String
  encrypted_backup_codes : Option CipherBytes
  date_added : String
deriving DecidableEq

/-- State of the `servicecodes` table: its rows in insertion order plus the
AUTOINCREMENT counter for the next `id`. -/
structure Table where
  rows : List Row
  nextId : Nat
deriving DecidableEq

/-- Model of `create_db`: `CREATE TABLE IF NOT EXISTS servicecodes (...)`.
The database state is `none` while the table does not exist; creating it
yields an empty table with the AUTOINCREMENT counter at 1, and an existing
table is left untouched. -/
def create_db (s : Option Table) : Table :=
  match s with
  | none => { rows := [], nextId := 1 }
  | some t => t

/-- Model of `count_entries_db`: `SELECT COUNT() FROM servicecodes`. -/
def count_entries_db (t : Table) : Nat :=
  t.rows.length

/-- Model of `ServiceCodes.servicecodes_factory` applied to a row of the
full-scan query `SELECT id, service_name, description,
encrypted_backup_codes, date_added FROM servicecodes`: the selected columns
are zipped by name into the dataclass fields, and the remaining field
`decrypted_backup_codes` takes its dataclass default. -/
def ServiceCodes.servicecodes_factory (r : Row) : ServiceCodes :=
  { id := r.id
    service_name := r.service_name
    date_added := r.date_added
    description := r.description
    encrypted_backup_codes := r.encrypted_backup_codes }

/-- Observable console activity of one invocation, in order. -/
inductive Event
  | printedKey (k : FernetKey)
  | promptedForKey
  | errorMsg (msg : String)
  | printedRecord (r : ServiceCodes)
  | printedAdded (name : String)
deriving DecidableEq

/-- Whether an event is the rendering of a (decrypted) record panel. -/
def Event.isPrintedRecord : Event → Bool
  | .printedRecord _ => true
  | _ => false

/-- The `KeyHolder` object after construction: it holds the Fernet engine
built by `fernet_factory`. -/
structure KeyHolder where
  engine : Fernet
deriving DecidableEq

/-- Model of `KeyHolder.fernet_factory`.  The randomness of
`Fernet.generate_key()` and the operator's reply to the masked prompt are
passed in as the explicit inputs `freshKey` and `userInput`, making the
function deterministic.  If the table is empty a new key is generated and
printed (generated keys are always well-formed, so `Fernet(key)` succeeds);
otherwise the operator is prompted and `Fernet(key)` validates the reply,
printing a diagnostic and raising `SystemExit(1)` on malformed input. -/
def fernet_factory (t : Table) (freshKey : FernetKey) (userInput : KeyMaterial) :
    List Event × Except PyErr Fernet :=
  if count_entries_db t = 0 then
    ([.printedKey freshKey], .ok { key := freshKey })
  else
    match userInput with
    | .wellFormed k => ([.promptedForKey], .ok { key := k })
    | .malformed _ =>
        ([.promptedForKey, .errorMsg "Invalid key! #001"], .error (.systemExit 1))

/-- Model of `KeyHolder.encrypt_codes`: UTF-8 encode the cleartext and
encrypt it with the held engine. -/
def KeyHolder.encrypt_codes (kh : KeyHolder) (clear_codes : String) : CipherBytes :=
  kh.engine.encrypt (pyEncode clear_codes)

/-- Model of `KeyHolder.decrypt_item`: decrypt with the held engine and
UTF-8 decode.  An `InvalidToken` from the engine is caught, a diagnostic is
printed and `SystemExit(1)` is raised; a decode failure would escape as an
uncaught `UnicodeDecodeError`. -/
def KeyHolder.decrypt_item (kh : KeyHolder) (data : CipherBytes) :
    List Event × Except PyErr String :=
  match kh.engine.decrypt data with
  | some cleartext =>
    match pyDecode cleartext with
    | some s => ([], .ok s)
    | none => ([], .error .unicodeDecodeError)
  | none => ([.errorMsg "Invalid key! #002"], .error (.systemExit 1))

/-- Arguments of the `add` subcommand together with the contents of the
input file (reading the file from disk is outside the core). -/
structure AddArgs where
  name : String
  description : Option String
  fileContents : String
deriving DecidableEq

/-- Model of `input_in_db`: construct the `KeyHolder` (key acquisition,
which may already fail), strip and encrypt the file contents, then run the
INSERT.  The UNIQUE constraint on `service_name` rejects a duplicate with
an `IntegrityError` that the function does not catch; on success the new
row is appended with the next AUTOINCREMENT id and the supplied timestamp,
and a confirmation line is printed.  Returns the console events, the
resulting table state and the outcome. -/
def input_in_db (t : Table) (args : AddArgs) (freshKey : FernetKey)
    (userInput : KeyMaterial) (now : String) :
    List Event × Table × Except PyErr Unit :=
  match fernet_factory t freshKey userInput with
  | (evs, .error e) => (evs, t, .error e)
  | (evs, .ok engine) =>
    let key : KeyHolder := { engine := engine }
    let input_file_contents := pyStrip args.fileContents
    let encrypted_codes := key.encrypt_codes input_file_contents
    if t.rows.any (fun r => r.service_name == args.name) then
      (evs, t,
        .error (.integrityError "UNIQUE constraint failed: servicecodes.service_name"))
    else
      (evs ++ [.printedAdded args.name],
        { rows := t.rows ++
            [{ id := t.nextId
               service_name := args.name
               description := args.description
               encrypted_backup_codes := some encrypted_codes
               date_added := now }]
          nextId := t.nextId + 1 },
        .ok ())

/-- One iteration of the display loop of `decrypt_all` on one scanned
record: a missing or empty `encrypted_backup_codes` raises `ValueError`
before any decryption; otherwise the payload is decrypted (which may
itself print a diagnostic and raise) and the record, with its decrypted
field attached, is rendered to the console. -/
def processRow (key : KeyHolder) (sc : ServiceCodes) :
    List Event × Except PyErr ServiceCodes :=
  match sc.encrypted_backup_codes with
  | none =>
    ([], .error (.valueError "Something went wrong in retrieving encrypted data from database"))
  | some data =>
    if data.pyFalsy then
      ([], .error (.valueError "Something went wrong in retrieving encrypted data from database"))
    else
      match key.decrypt_item data with
      | (devs, .error e) => (devs, .error e)
      | (devs, .ok s) =>
        (devs ++ [.printedRecord { sc with decrypted_backup_codes := s }],
          .ok { sc with decrypted_backup_codes := s })

/-- The `for row in db_response` loop of `decrypt_all`: process the scanned
records in order, stopping at the first record whose processing raises. -/
def decryptLoop (key : KeyHolder) : List ServiceCodes → List Event × Except PyErr Unit
  | [] => ([], .ok ())
  | sc :: rest =>
    match processRow key sc with
    | (evs, .error e) => (evs, .error e)
    | (evs, .ok _) =>
      let r := decryptLoop key rest
      (evs ++ r.1, r.2)

/-- Model of `decrypt_all`: on an empty table print guidance and raise
`SystemExit(1)` before any key acquisition; otherwise construct the
`KeyHolder`, scan every row through `servicecodes_factory`, and run the
display loop. -/
def decrypt_all (t : Table) (freshKey : FernetKey) (userInput : KeyMaterial) :
    List Event × Except PyErr Unit :=
  if count_entries_db t < 1 then
    ([.errorMsg "Add new entries to db first.",
      .errorMsg "See `twofabackup add -h` for details"],
      .error (.systemExit 1))
  else
    match fernet_factory t freshKey userInput with
    | (evs, .error e) => (evs, .error e)
    | (evs, .ok engine) =>
      let key : KeyHolder := { engine := engine }
      let db_response := t.rows.map ServiceCodes.servicecodes_factory
      let looped := decryptLoop key db_response
      (evs ++ looped.1, looped.2)

/-- Whether a list of console events displays a freshly generated key. -/
def displaysGeneratedKey (evs : List Event) : Bool :=
  evs.any fun e => match e with | .printedKey _ => true | _ => false

/-- Whether a list of console events shows the masked key prompt. -/
def promptsOperatorForKey (evs : List Event) : Bool :=
  evs.any fun e => match e with | .promptedForKey => true | _ => false

/-! Helper lemmas about the codec and the cipher. -/

theorem decodeCodePoint_toNat (c : Char) : decodeCodePoint c.toNat = some c := by
  have hv : c.toNat.isValidChar := c.valid
  simp [decodeCodePoint, hv, Char.ofNat_toNat]

theorem decodeCodePoints_encode (l : List Char) :
    decodeCodePoints (l.map Char.toNat) = some l := by
  induction l with
  | nil => rfl
  | cons c cs ih => simp [decodeCodePoints, decodeCodePoint_toNat, ih]

theorem pyDecode_pyEncode (s : String) : pyDecode (pyEncode s) = some s := by
  simp [pyDecode, pyEncode, decodeCodePoints_encode]

theorem decrypt_item_encrypt_codes (kh : KeyHolder) (c : String) :
    kh.decrypt_item (kh.encrypt_codes c) = ([], Except.ok c) := by
  simp [KeyHolder.decrypt_item, KeyHolder.encrypt_codes, Fernet.encrypt, Fernet.decrypt,
    pyDecode_pyEncode]

/-! Claim theorems. -/

/-- C1: for every cleartext string `c` and every engine holding a valid
Fernet key, decrypting the result of encrypting `c` with that same engine
returns `c` exactly (with no console output and no error raised). -/
theorem C1_encrypt_decrypt_roundtrip (kh : KeyHolder) (c : String) :
    kh.decrypt_item (kh.encrypt_codes c) = ([], Except.ok c) :=
  decrypt_item_encrypt_codes kh c

/-- C4: a freshly created store has zero records, and invoking read-all on
any store with zero records prints the two guidance lines and raises
`SystemExit(1)`; the console events are exactly the two error lines, so no
key is acquired and no decryption is attempted. -/
theorem C4_empty_vault_gating :
    count_entries_db (create_db none) = 0 ∧
    ∀ (t : Table) (fk : FernetKey) (u : KeyMaterial), count_entries_db t = 0 →
      decrypt_all t fk u =
        ([.errorMsg "Add new entries to db first.",
          .errorMsg "See `twofabackup add -h` for details"],
          .error (.systemExit 1)) := by
  refine ⟨rfl, ?_⟩
  intro t fk u h
  simp [decrypt_all, h]

/-- Witness for C4 at the freshly created store. -/
theorem C4_empty_vault_gating_witness :
    count_entries_db (create_db none) = 0 ∧
    decrypt_all (create_db none) ⟨0⟩ (KeyMaterial.wellFormed ⟨0⟩) =
      ([.errorMsg "Add new entries to db first.",
        .errorMsg "See `twofabackup add -h` for details"],
        .error (.systemExit 1)) :=
  ⟨C4_empty_vault_gating.1,
    C4_empty_vault_gating.2 (create_db none) ⟨0⟩ (KeyMaterial.wellFormed ⟨0⟩) rfl⟩

/-- C5: key acquisition generates and displays a fresh key exactly when the
store is empty, and prompts the operator for an existing key exactly when it
is not; it never does both and never does neither. -/
theorem C5_key_acquisition_trigger (t : Table) (fk : FernetKey) (u : KeyMaterial) :
    (displaysGeneratedKey (fernet_factory t fk u).1 = true ↔ count_entries_db t = 0) ∧
    (promptsOperatorForKey (fernet_factory t fk u).1 = true ↔ 0 < count_entries_db t) ∧
    ¬(displaysGeneratedKey (fernet_factory t fk u).1 = true ∧
      promptsOperatorForKey (fernet_factory t fk u).1 = true) ∧
    (displaysGeneratedKey (fernet_factory t fk u).1 = true ∨
      promptsOperatorForKey (fernet_factory t fk u).1 = true) := by
  by_cases h : count_entries_db t = 0
  · simp [fernet_factory, h, displaysGeneratedKey, promptsOperatorForKey]
  · cases u <;>
      simp [fernet_factory, h, displaysGeneratedKey, promptsOperatorForKey,
        Nat.pos_of_ne_zero h]

/-- C6: every record produced by reading from storage, i.e. by the row
factory applied to a row of the full-scan query, has its decrypted payload
field equal to the empty string. -/
theorem C6_scan_decrypted_empty (t : Table) :
    (t.rows.map ServiceCodes.servicecodes_factory).all
      (fun sc => sc.decrypted_backup_codes == "") = true := by
  simp [List.all_eq_true, ServiceCodes.servicecodes_factory]

/-- Characterization of a successful insert: with no duplicate name and a
usable key (empty store, or a well-formed operator key), `input_in_db`
appends exactly one row holding the supplied fields and the encryption of
the stripped file contents under the engine's key. -/
theorem input_in_db_ok (t : Table) (a : AddArgs) (fk : FernetKey) (u : KeyMaterial)
    (ts : String)
    (hname : t.rows.any (fun r => r.service_name == a.name) = false)
    (hkey : count_entries_db t = 0 ∨ ∃ k, u = KeyMaterial.wellFormed k) :
    ∃ ek : FernetKey,
      input_in_db t a fk u ts =
        ((fernet_factory t fk u).1 ++ [.printedAdded a.name],
          { rows := t.rows ++
              [{ id := t.nextId
                 service_name := a.name
                 description := a.description
                 encrypted_backup_codes :=
                   some (CipherBytes.token ek (pyEncode (pyStrip a.fileContents)))
                 date_added := ts }]
            nextId := t.nextId + 1 },
          Except.ok ()) := by
  by_cases hc : count_entries_db t = 0
  · exact ⟨fk, by simp [input_in_db, fernet_factory, hc, hname,
      KeyHolder.encrypt_codes, Fernet.encrypt]⟩
  · obtain ⟨k, rfl⟩ := hkey.resolve_left hc
    exact ⟨k, by simp [input_in_db, fernet_factory, hc, hname,
      KeyHolder.encrypt_codes, Fernet.encrypt]⟩

/-- C7: a successful insert raises the record count by exactly one, and the
full scan afterwards is the previous sequence extended with the newly
inserted record carrying the supplied service name, description, encrypted
payload and timestamp. -/
theorem C7_insert_visibility (t : Table) (a : AddArgs) (fk : FernetKey)
    (u : KeyMaterial) (ts : String)
    (hname : t.rows.any (fun r => r.service_name == a.name) = false)
    (hkey : count_entries_db t = 0 ∨ ∃ k, u = KeyMaterial.wellFormed k) :
    (input_in_db t a fk u ts).2.2 = Except.ok () ∧
    count_entries_db (input_in_db t a fk u ts).2.1 = count_entries_db t + 1 ∧
    ∃ ek : FernetKey,
      (input_in_db t a fk u ts).2.1.rows =
        t.rows ++
          [{ id := t.nextId
             service_name := a.name
             description := a.description
             encrypted_backup_codes :=
               some (CipherBytes.token ek (pyEncode (pyStrip a.fileContents)))
             date_added := ts }] := by
  obtain ⟨ek, heq⟩ := input_in_db_ok t a fk u ts hname hkey
  rw [heq]
  exact ⟨rfl, by simp [count_entries_db], ⟨ek, rfl⟩⟩

/-- Concrete sample data for witnesses and counterexamples. -/
def addGithub : AddArgs :=
  { name := "github", description := some "personal", fileContents := "111111\n222222" }

/-- Concrete empty store. -/
def emptyTable : Table := create_db none

/-- Concrete stored record named github. -/
def githubRow : Row :=
  { id := 1
    service_name := "github"
    description := some "personal"
    encrypted_backup_codes := some (.token ⟨7⟩ (pyEncode "111111\n222222"))
    date_added := "2024-06-01" }

/-- Concrete one-record store holding `githubRow`. -/
def githubTable : Table := { rows := [githubRow], nextId := 2 }

/-- Witness for C7 on the concrete empty store. -/
theorem C7_insert_visibility_witness :
    (input_in_db emptyTable addGithub ⟨1⟩ (KeyMaterial.wellFormed ⟨2⟩) "2024-06-01").2.2 =
      Except.ok () ∧
    count_entries_db
      (input_in_db emptyTable addGithub ⟨1⟩ (KeyMaterial.wellFormed ⟨2⟩) "2024-06-01").2.1 = 1 := by
  obtain ⟨h1, h2, -⟩ := C7_insert_visibility emptyTable addGithub ⟨1⟩
    (KeyMaterial.wellFormed ⟨2⟩) "2024-06-01" (by decide) (Or.inl rfl)
  exact ⟨h1, by simpa using h2⟩

/-- C9: the add operation strips surrounding whitespace from the file
contents before encrypting and storing; the stored payload decrypts to the
stripped text, which differs from the raw contents whenever they carry
surrounding whitespace or a trailing newline. -/
theorem C9_strip_before_store (t : Table) (a : AddArgs) (fk : FernetKey)
    (u : KeyMaterial) (ts : String)
    (hname : t.rows.any (fun r => r.service_name == a.name) = false)
    (hkey : count_entries_db t = 0 ∨ ∃ k, u = KeyMaterial.wellFormed k) :
    ∃ kh : KeyHolder,
      (input_in_db t a fk u ts).2.1.rows =
        t.rows ++
          [{ id := t.nextId
             service_name := a.name
             description := a.description
             encrypted_backup_codes := some (kh.encrypt_codes (pyStrip a.fileContents))
             date_added := ts }] ∧
      kh.decrypt_item (kh.encrypt_codes (pyStrip a.fileContents)) =
        ([], Except.ok (pyStrip a.fileContents)) ∧
      (pyStrip a.fileContents ≠ a.fileContents →
        (kh.decrypt_item (kh.encrypt_codes (pyStrip a.fileContents))).2 ≠
          Except.ok a.fileContents) := by
  obtain ⟨ek, heq⟩ := input_in_db_ok t a fk u ts hname hkey
  refine ⟨⟨⟨ek⟩⟩, by rw [heq]; rfl, decrypt_item_encrypt_codes _ _, ?_⟩
  intro hne
  rw [decrypt_item_encrypt_codes]
  simpa using hne

/-- Witness for C9 with contents carrying surrounding whitespace. -/
theorem C9_strip_before_store_witness :
    ∃ kh : KeyHolder,
      kh.decrypt_item (kh.encrypt_codes (pyStrip "  abc\n")) =
        ([], Except.ok (pyStrip "  abc\n")) ∧
      (kh.decrypt_item (kh.encrypt_codes (pyStrip "  abc\n"))).2 ≠ Except.ok "  abc\n" := by
  obtain ⟨kh, -, h2, h3⟩ := C9_strip_before_store emptyTable
    { name := "svc", description := none, fileContents := "  abc\n" } ⟨3⟩
    (KeyMaterial.wellFormed ⟨4⟩) "ts" (by decide) (Or.inl rfl)
  exact ⟨kh, h2, h3 (by decide)⟩

/-- Counterexample to C2 as stated: on the concrete one-record store, a
second insert with the same service name does fail, but the failure is an
uncaught IntegrityError that terminates the process, so the conjunct
"reported but not fatal to the process" is false. -/
theorem C2_counterexample :
    ¬ (exceptFails
          (input_in_db githubTable addGithub ⟨5⟩ (KeyMaterial.wellFormed ⟨7⟩) "ts").2.2 = true ∧
       processFatal
          (input_in_db githubTable addGithub ⟨5⟩ (KeyMaterial.wellFormed ⟨7⟩) "ts").2.2 = false) := by
  decide

/-- C2 amended: inserting a second record with an existing service name
fails with the uniqueness IntegrityError, which the program does not catch,
so it is fatal to the invocation; the failing insert writes nothing (the
table is unchanged) and the store still contains exactly one record with
that name. -/
theorem C2_duplicate_insert (t : Table) (a : AddArgs) (fk k : FernetKey) (ts : String)
    (hone : (t.rows.filter (fun r => r.service_name == a.name)).length = 1) :
    (input_in_db t a fk (KeyMaterial.wellFormed k) ts).2.2 =
      Except.error (PyErr.integrityError "UNIQUE constraint failed: servicecodes.service_name") ∧
    (input_in_db t a fk (KeyMaterial.wellFormed k) ts).2.1 = t ∧
    processFatal (input_in_db t a fk (KeyMaterial.wellFormed k) ts).2.2 = true ∧
    ((input_in_db t a fk (KeyMaterial.wellFormed k) ts).2.1.rows.filter
        (fun r => r.service_name == a.name)).length = 1 := by
  have hne : t.rows.filter (fun r => r.service_name == a.name) ≠ [] := by
    intro hnil
    rw [hnil] at hone
    simp at hone
  obtain ⟨x, hx⟩ := List.exists_mem_of_ne_nil _ hne
  have hany : t.rows.any (fun r => r.service_name == a.name) = true :=
    List.any_eq_true.mpr ⟨x, (List.mem_filter.mp hx).1, (List.mem_filter.mp hx).2⟩
  by_cases hc : count_entries_db t = 0 <;>
    simp [input_in_db, fernet_factory, hc, hany, processFatal, hone]

/-- Witness for the amended C2 on the concrete one-record store. -/
theorem C2_duplicate_insert_witness :
    (input_in_db githubTable addGithub ⟨5⟩ (KeyMaterial.wellFormed ⟨7⟩) "ts2").2.2 =
      Except.error (PyErr.integrityError "UNIQUE constraint failed: servicecodes.service_name") ∧
    (input_in_db githubTable addGithub ⟨5⟩ (KeyMaterial.wellFormed ⟨7⟩) "ts2").2.1 = githubTable ∧
    processFatal (input_in_db githubTable addGithub ⟨5⟩ (KeyMaterial.wellFormed ⟨7⟩) "ts2").2.2 =
      true ∧
    ((input_in_db githubTable addGithub ⟨5⟩ (KeyMaterial.wellFormed ⟨7⟩) "ts2").2.1.rows.filter
        (fun r => r.service_name == addGithub.name)).length = 1 :=
  C2_duplicate_insert githubTable addGithub ⟨5⟩ ⟨7⟩ "ts2" (by decide)

/-- C8: schema creation is idempotent — run on a state where the table
already exists it leaves the table (schema and every stored record)
unchanged, and running it twice has the same effect as running it once. -/
theorem C8_create_db_idempotent :
    (∀ t : Table, create_db (some t) = t) ∧
    (∀ s : Option Table, create_db (some (create_db s)) = create_db s) := by
  constructor
  · intro t; rfl
  · intro s; cases s <;> rfl

/-! Infrastructure for the display loop of `decrypt_all`. -/

/-- Whether one scanned record passes its iteration of the display loop:
its payload is present, non-empty, and decrypts and decodes cleanly. -/
def rowOk (key : KeyHolder) (sc : ServiceCodes) : Bool :=
  match sc.encrypted_backup_codes with
  | none => false
  | some data => !data.pyFalsy && !(exceptFails (key.decrypt_item data).2)

/-- The cleartext recovered for one scanned record (empty string when its
iteration fails). -/
def rowValue (key : KeyHolder) (sc : ServiceCodes) : String :=
  match sc.encrypted_backup_codes with
  | none => ""
  | some data =>
    match (key.decrypt_item data).2 with
    | .ok s => s
    | .error _ => ""

theorem decrypt_item_shape (kh : KeyHolder) (data : CipherBytes) :
    (∃ s, kh.decrypt_item data = ([], Except.ok s)) ∨
    kh.decrypt_item data = ([], Except.error .unicodeDecodeError) ∨
    kh.decrypt_item data =
      ([.errorMsg "Invalid key! #002"], Except.error (.systemExit 1)) := by
  unfold KeyHolder.decrypt_item
  cases hd : kh.engine.decrypt data with
  | none => simp
  | some cleartext =>
    cases hp : pyDecode cleartext with
    | none => simp [hp]
    | some s => simp [hp]

theorem processRow_ok_eq (key : KeyHolder) (sc : ServiceCodes) (h : rowOk key sc = true) :
    processRow key sc =
      ([.printedRecord { sc with decrypted_backup_codes := rowValue key sc }],
        .ok { sc with decrypted_backup_codes := rowValue key sc }) := by
  cases henc : sc.encrypted_backup_codes with
  | none => simp [rowOk, henc] at h
  | some data =>
    have h' := h
    simp only [rowOk, henc, Bool.and_eq_true, Bool.not_eq_true'] at h'
    obtain ⟨hfal, hok⟩ := h'
    rcases decrypt_item_shape key data with ⟨s, hs⟩ | hs | hs
    · simp [processRow, rowValue, henc, hfal, hs]
    · rw [hs] at hok; simp [exceptFails] at hok
    · rw [hs] at hok; simp [exceptFails] at hok

theorem processRow_err (key : KeyHolder) (sc : ServiceCodes) (h : rowOk key sc = false) :
    exceptFails (processRow key sc).2 = true ∧
    (processRow key sc).1.filter Event.isPrintedRecord = [] := by
  cases henc : sc.encrypted_backup_codes with
  | none => simp [processRow, henc, exceptFails]
  | some data =>
    by_cases hfal : data.pyFalsy
    · simp [processRow, henc, hfal, exceptFails]
    · have hfal' : data.pyFalsy = false := by simpa using hfal
      simp only [rowOk, henc, hfal', Bool.not_false, Bool.true_and,
        Bool.not_eq_false'] at h
      rcases decrypt_item_shape key data with ⟨s, hs⟩ | hs | hs
      · rw [hs] at h; simp [exceptFails] at h
      · simp [processRow, henc, hfal', hs, exceptFails, Event.isPrintedRecord]
      · simp [processRow, henc, hfal', hs, exceptFails, Event.isPrintedRecord]

theorem decryptLoop_fail (key : KeyHolder) (rows : List ServiceCodes)
    (h : rows.all (rowOk key) = false) :
    exceptFails (decryptLoop key rows).2 = true ∧
    (decryptLoop key rows).1.filter Event.isPrintedRecord =
      (rows.takeWhile (rowOk key)).map
        (fun sc => .printedRecord { sc with decrypted_backup_codes := rowValue key sc }) := by
  induction rows with
  | nil => simp at h
  | cons sc rest ih =>
    by_cases hsc : rowOk key sc
    · have hrest : rest.all (rowOk key) = false := by
        simpa [hsc] using h
      have hr := ih hrest
      refine ⟨?_, ?_⟩
      · simpa [decryptLoop, processRow_ok_eq key sc hsc] using hr.1
      · simp [decryptLoop, processRow_ok_eq key sc hsc, List.takeWhile_cons, hsc,
          Event.isPrintedRecord, hr.2]
    · have hsc' : rowOk key sc = false := by simpa using hsc
      have hp := processRow_err key sc hsc'
      cases hpr : processRow key sc with
      | mk evs res =>
        rw [hpr] at hp
        cases res with
        | ok v => simp [exceptFails] at hp
        | error e =>
          refine ⟨?_, ?_⟩
          · simp [decryptLoop, hpr, exceptFails]
          · simp [decryptLoop, hpr, List.takeWhile_cons, hsc', hp.2]

theorem rowOk_eq_false_of_falsy (key : KeyHolder) (sc : ServiceCodes)
    (h : bytesFalsy sc.encrypted_backup_codes = true) : rowOk key sc = false := by
  cases henc : sc.encrypted_backup_codes with
  | none => simp [rowOk, henc]
  | some data =>
    rw [henc] at h
    simp only [bytesFalsy] at h
    simp [rowOk, henc, h]

theorem processRow_printed_not_falsy (key : KeyHolder) (sc sc' : ServiceCodes)
    (h : Event.printedRecord sc' ∈ (processRow key sc).1) :
    bytesFalsy sc'.encrypted_backup_codes = false := by
  cases henc : sc.encrypted_backup_codes with
  | none => simp [processRow, henc] at h
  | some data =>
    by_cases hfal : data.pyFalsy
    · simp [processRow, henc, hfal] at h
    · have hfal' : data.pyFalsy = false := by simpa using hfal
      rcases decrypt_item_shape key data with ⟨s, hs⟩ | hs | hs
      · simp only [processRow, henc, hfal', Bool.false_eq_true, if_false, hs,
          List.nil_append, List.mem_singleton, Event.printedRecord.injEq] at h
        subst h
        simp [bytesFalsy, henc, hfal']
      · simp [processRow, henc, hfal', hs] at h
      · simp [processRow, henc, hfal', hs] at h

theorem decryptLoop_printed_not_falsy (key : KeyHolder) (rows : List ServiceCodes)
    (sc' : ServiceCodes) (h : Event.printedRecord sc' ∈ (decryptLoop key rows).1) :
    bytesFalsy sc'.encrypted_backup_codes = false := by
  induction rows with
  | nil => simp [decryptLoop] at h
  | cons sc rest ih =>
    cases hpr : processRow key sc with
    | mk evs res =>
      cases res with
      | error e =>
        simp only [decryptLoop, hpr] at h
        exact processRow_printed_not_falsy key sc sc' (by rw [hpr]; exact h)
      | ok v =>
        simp only [decryptLoop, hpr, List.mem_append] at h
        rcases h with h | h
        · exact processRow_printed_not_falsy key sc sc' (by rw [hpr]; exact h)
        · exact ih h

/-- Concrete two-record store whose second record was encrypted under a
different key, so listing with the first key fails on the second record. -/
def mixedTable : Table :=
  { rows :=
      [{ id := 1, service_name := "github", description := none,
         encrypted_backup_codes := some (.token ⟨1⟩ (pyEncode "hi")),
         date_added := "2024-06-01" },
       { id := 2, service_name := "gitlab", description := none,
         encrypted_backup_codes := some (.token ⟨2⟩ (pyEncode "yo")),
         date_added := "2024-06-02" }]
    nextId := 3 }

/-- Counterexample to C3 as stated: on the concrete two-record store where
only the second record fails to decrypt, the list-all run does abort, yet a
record's decrypted payload has already been rendered to the console, so the
operator is presented a partially decrypted result set. -/
theorem C3_counterexample :
    ¬ (exceptFails (decrypt_all mixedTable ⟨9⟩ (KeyMaterial.wellFormed ⟨1⟩)).2 = true →
       (decrypt_all mixedTable ⟨9⟩ (KeyMaterial.wellFormed ⟨1⟩)).1.filter
           Event.isPrintedRecord = []) := by
  decide

/-- C3 amended: when some stored record fails its iteration (absent or
empty payload, failed integrity check, or undecodable cleartext), the whole
list-all invocation aborts with an error at the first failing record — no
record at or after the failure is rendered — but the records preceding the
first failure have already been output with their decrypted payloads. -/
theorem C3_abort_on_first_failure (t : Table) (fk k : FernetKey)
    (hn : count_entries_db t ≠ 0)
    (hfail : (t.rows.map ServiceCodes.servicecodes_factory).all (rowOk ⟨⟨k⟩⟩) = false) :
    exceptFails (decrypt_all t fk (KeyMaterial.wellFormed k)).2 = true ∧
    (decrypt_all t fk (KeyMaterial.wellFormed k)).1.filter Event.isPrintedRecord =
      ((t.rows.map ServiceCodes.servicecodes_factory).takeWhile (rowOk ⟨⟨k⟩⟩)).map
        (fun sc => .printedRecord { sc with decrypted_backup_codes := rowValue ⟨⟨k⟩⟩ sc }) := by
  have hlt : ¬ count_entries_db t < 1 := by omega
  have h := decryptLoop_fail ⟨⟨k⟩⟩ (t.rows.map ServiceCodes.servicecodes_factory) hfail
  constructor
  · simpa [decrypt_all, hlt, fernet_factory, hn] using h.1
  · simpa [decrypt_all, hlt, fernet_factory, hn, Event.isPrintedRecord] using h.2

/-- Witness for the amended C3 on the concrete two-record store. -/
theorem C3_abort_on_first_failure_witness :
    exceptFails (decrypt_all mixedTable ⟨9⟩ (KeyMaterial.wellFormed ⟨1⟩)).2 = true ∧
    (decrypt_all mixedTable ⟨9⟩ (KeyMaterial.wellFormed ⟨1⟩)).1.filter Event.isPrintedRecord =
      ((mixedTable.rows.map ServiceCodes.servicecodes_factory).takeWhile (rowOk ⟨⟨⟨1⟩⟩⟩)).map
        (fun sc => .printedRecord { sc with decrypted_backup_codes := rowValue ⟨⟨⟨1⟩⟩⟩ sc }) :=
  C3_abort_on_first_failure mixedTable ⟨9⟩ ⟨1⟩ (by decide) (by decide)

/-- C10: if the full scan returns a record whose encrypted payload is
missing or empty (`None` or the empty byte string, both permitted by the
nullable column), the list-all invocation raises an error and aborts, and
that record is never decrypted and rendered — no rendering of it, under any
decrypted value, appears among the console events — rather than being
decrypted or skipped. -/
theorem C10_falsy_payload_aborts (t : Table) (fk : FernetKey) (u : KeyMaterial) (r : Row)
    (hr : r ∈ t.rows) (hfalsy : bytesFalsy r.encrypted_backup_codes = true) :
    exceptFails (decrypt_all t fk u).2 = true ∧
    ∀ s : String,
      Event.printedRecord
          { ServiceCodes.servicecodes_factory r with decrypted_backup_codes := s } ∉
        (decrypt_all t fk u).1 := by
  have hpos : 0 < count_entries_db t := List.length_pos.mpr (List.ne_nil_of_mem hr)
  have hlt : ¬ count_entries_db t < 1 := by omega
  have hn : count_entries_db t ≠ 0 := by omega
  have hmem : ServiceCodes.servicecodes_factory r ∈
      t.rows.map ServiceCodes.servicecodes_factory := List.mem_map_of_mem _ hr
  have hfalsy' : bytesFalsy (ServiceCodes.servicecodes_factory r).encrypted_backup_codes =
      true := hfalsy
  cases u with
  | malformed raw =>
    constructor
    · simp [decrypt_all, hlt, fernet_factory, hn, exceptFails]
    · intro s
      simp [decrypt_all, hlt, fernet_factory, hn]
  | wellFormed k =>
    have hall : (t.rows.map ServiceCodes.servicecodes_factory).all (rowOk ⟨⟨k⟩⟩) = false :=
      List.all_eq_false.mpr
        ⟨ServiceCodes.servicecodes_factory r, hmem, by
          simp [rowOk_eq_false_of_falsy ⟨⟨k⟩⟩ _ hfalsy']⟩
    have hloop := decryptLoop_fail ⟨⟨k⟩⟩ (t.rows.map ServiceCodes.servicecodes_factory) hall
    constructor
    · simpa [decrypt_all, hlt, fernet_factory, hn] using hloop.1
    · intro s hin
      have hin' : Event.printedRecord
          { ServiceCodes.servicecodes_factory r with decrypted_backup_codes := s } ∈
          (decryptLoop ⟨⟨k⟩⟩ (t.rows.map ServiceCodes.servicecodes_factory)).1 := by
        simpa [decrypt_all, hlt, fernet_factory, hn] using hin
      have hnf := decryptLoop_printed_not_falsy ⟨⟨k⟩⟩
        (t.rows.map ServiceCodes.servicecodes_factory) _ hin'
      rw [show ({ ServiceCodes.servicecodes_factory r with
          decrypted_backup_codes := s } : ServiceCodes).encrypted_backup_codes =
          r.encrypted_backup_codes from rfl] at hnf
      rw [hfalsy] at hnf
      cases hnf

/-- Concrete store holding one record with a missing encrypted payload. -/
def nullTable : Table :=
  { rows :=
      [{ id := 1, service_name := "broken", description := none,
         encrypted_backup_codes := none, date_added := "2024-06-03" }]
    nextId := 2 }

/-- Witness for C10 on the concrete store with a missing payload. -/
theorem C10_falsy_payload_aborts_witness :
    exceptFails (decrypt_all nullTable ⟨1⟩ (KeyMaterial.wellFormed ⟨1⟩)).2 = true ∧
    Event.printedRecord
        { ServiceCodes.servicecodes_factory
            { id := 1, service_name := "broken", description := none,
              encrypted_backup_codes := none, date_added := "2024-06-03" } with
          decrypted_backup_codes := "x" } ∉
      (decrypt_all nullTable ⟨1⟩ (KeyMaterial.wellFormed ⟨1⟩)).1 := by
  have h := C10_falsy_payload_aborts nullTable ⟨1⟩ (KeyMaterial.wellFormed ⟨1⟩)
    { id := 1, service_name := "broken", description := none,
      encrypted_backup_codes := none, date_added := "2024-06-03" }
    (by decide) rfl
  exact ⟨h.1, h.2 "x"⟩

end Twofabackup
